import Mathlib

/-!
Verification of the MazingiraGuard AI client (React/TypeScript) against its
natural-language specification.  The relevant program logic lives in
`src/components/Chatbot.tsx` (the `MazingiraAgent` service facade, the PCM16
audio decoder `decodeAudioData`, the chat-stream consumer in `handleSend`, and
the video-generation poll loop in `MazingiraAgent.generateVideo`) and in
`src/App.tsx` (`addLog`, `handleFeedbackSubmit`, `handleExportCSV`), with the
data model from `src/types.ts`.

Modelling conventions:
* TypeScript string enums (`CrimeType`, `Severity`, `FieldStatus`, the
  accuracy rating) are runtime strings; they are modelled as `String`.
* JavaScript numbers that the claims compare against decimal constants
  (`confidence` vs `0.4`) are modelled as exact rationals `ℚ`; for the decimal
  values appearing in the claims (0.39, 0.40) the order relations agree with
  IEEE-754 double arithmetic.
* Calls into the network / browser are failure points supplied as explicit
  arguments (an `Except`/sum-typed outcome per call); code the repository does
  not contain (the Gemini backend, `fetch`, `URL.createObjectURL`,
  `AudioContext.createBuffer`, `Date`) is either a parameter or a definition
  whose doc comment says which external behaviour it models.
-/

namespace Mazingira

/-- `ReasoningStructure` from `src/types.ts`. -/
structure ReasoningStructure where
  hypothesis : String
  evidencePoints : List String
  alternatives : List String
  changeDetection : String
deriving DecidableEq, Repr

/-- `GroundingSource` from `src/types.ts`. -/
structure GroundingSource where
  title : String
  uri : String
deriving DecidableEq, Repr

/-- `FieldFeedback` from `src/types.ts`.  `accuracyRating` ranges over the
string literals `"Correct" | "Partial" | "Incorrect"`. -/
structure FieldFeedback where
  confirmed : Option Bool
  accuracyRating : String
  groundNotes : String
  updatedBy : String
  timestamp : Nat
deriving DecidableEq, Repr

/-- The inline `location` object of `IncidentReport` from `src/types.ts`.
Latitude and longitude are modelled as exact rationals. -/
structure Location where
  lat : ℚ
  lng : ℚ
  region : String
deriving DecidableEq, Repr

/-- `IncidentReport` from `src/types.ts`.  `type`, `severity` and `status` are
TypeScript string enums / literal unions, modelled as their runtime strings
(`status` ranges over `"Detected" | "Alerted" | "Investigation Pending" |
"Threat Confirmed" | "Area Secured" | "False Positive"`).  `reasoningChain` is
the optional union `string | ReasoningStructure`. -/
structure IncidentReport where
  id : String
  timestamp : Nat
  type : String
  severity : String
  location : Location
  description : String
  confidence : ℚ
  imageUrl : Option String
  status : String
  reasoningChain : Option (String ⊕ ReasoningStructure)
  groundingSources : List GroundingSource
  feedback : Option FieldFeedback
deriving DecidableEq, Repr

/-! ### The analysis facade (`MazingiraAgent.analyzeImagery`, Chatbot.tsx 431-531) -/

/-- The structured-analysis JSON object decoded from the backend response text
(`JSON.parse(response.text)` in `analyzeImagery`), with the fields required by
the `responseSchema`: `type`, `severity`, `description`, `confidence`,
`reasoningChain`.  The guard `!data.type` in the source is truthy exactly when
the `type` field is absent or the empty string; both are modelled as `""`.
`confidence` is schema-required and is modelled as present. -/
structure AnalysisData where
  type : String
  severity : String
  description : String
  confidence : ℚ
  reasoningChain : ReasoningStructure
deriving DecidableEq, Repr

/-- One grounding chunk of `response.candidates[0].groundingMetadata`:
`chunk.web` is optional; `chunk.web.title` may be absent or empty (both
modelled as `""`, the falsy cases of `chunk.web.title || 'Source Verified'`). -/
structure GroundingChunk where
  web : Option GroundingSource
deriving DecidableEq, Repr

/-- Outcome of the one backend call made by `analyzeImagery`: the request can
throw (transport / backend failure), `JSON.parse` of the response text can
throw, or a decoded `AnalysisData` plus grounding chunks is obtained.  All
three are routed through the source's single `try`/`catch`. -/
inductive AnalysisOutcome where
  | transportError (msg : String)
  | parseError (msg : String)
  | parsed (data : AnalysisData) (chunks : List GroundingChunk)
deriving DecidableEq, Repr

/-- The ambient values `analyzeImagery` draws from its environment when it
builds a report: `Math.random().toString(36).substring(7)` for the id,
`Date.now()` for the timestamp, and the two jittered coordinates
`-1.286389 + (Math.random() - 0.5) * 0.1` / `36.817223 + ...`. -/
structure AnalysisEnv where
  newId : String
  now : Nat
  lat : ℚ
  lng : ℚ
deriving DecidableEq, Repr

/-- The grounding-source extraction loop of `analyzeImagery`: keep the chunks
that have a `web` entry, defaulting an absent/empty title to
`'Source Verified'`. -/
def extractGroundingSources (chunks : List GroundingChunk) : List GroundingSource :=
  chunks.filterMap (fun chunk =>
    chunk.web.map (fun w =>
      { title := if w.title = "" then "Source Verified" else w.title, uri := w.uri }))

/-- `MazingiraAgent.analyzeImagery` (Chatbot.tsx 431-531).  The request itself
is external; its outcome is the `backend` argument.  A thrown error is caught
by the source's `catch` block, which logs and returns `null`.  On a decoded
result the source materializes an `IncidentReport` unless
`!data.type || data.confidence < 0.4`. -/
def analyzeImagery (env : AnalysisEnv) (base64Image : String) (region : String)
    (backend : AnalysisOutcome) : Option IncidentReport :=
  match backend with
  | .transportError _ => none
  | .parseError _ => none
  | .parsed data chunks =>
    if data.type = "" ∨ data.confidence < 0.4 then none
    else
      some
        { id := env.newId
          timestamp := env.now
          type := data.type
          severity := data.severity
          location := { lat := env.lat, lng := env.lng, region := region }
          description := data.description
          confidence := data.confidence
          imageUrl := some ("data:image/jpeg;base64," ++ base64Image)
          status := "Detected"
          reasoningChain := some (Sum.inr data.reasoningChain)
          groundingSources := extractGroundingSources chunks
          feedback := none }

/-- The caller-side store effect (`App.handleFileUpload`): a non-null analysis
result is prepended to the incident list, a `null` result changes nothing. -/
def storeAfterAnalysis (result : Option IncidentReport)
    (prev : List IncidentReport) : List IncidentReport :=
  match result with
  | some r => r :: prev
  | none => prev

/-! ### The audio decoder (`decodeAudioData`, Chatbot.tsx 58-75)

The input is the contents of a `Uint8Array` (a list of byte values).  The
source views it as an `Int16Array` (little-endian signed 16-bit samples),
computes `frameCount = dataInt16.length / numChannels` (a JS float, possibly
fractional), allocates a buffer with `ctx.createBuffer(numChannels, frameCount,
sampleRate)`, and de-interleaves `dataInt16[i * numChannels + channel] /
32768.0` into each channel.  Each sample value `k / 32768` with
`-32768 ≤ k < 32768` is exactly representable as a 32-bit float, so samples
are modelled as exact rationals. -/

/-- Signed 16-bit little-endian value of a byte pair, as read by an
`Int16Array` view. -/
def int16OfBytes (lo hi : Nat) : Int :=
  let u := lo + 256 * hi
  if u < 32768 then (u : Int) else (u : Int) - 65536

/-- The `Int16Array` view of an even-length byte array: consecutive
little-endian byte pairs. -/
def int16Samples : List Nat → List Int
  | lo :: hi :: rest => int16OfBytes lo hi :: int16Samples rest
  | _ => []

/-- The signed 16-bit little-endian integer at byte offset `off` of a byte
buffer (out-of-range bytes default to 0; the theorems only use in-range
offsets). -/
def int16At (data : List Nat) (off : Nat) : Int :=
  int16OfBytes ((data.get? off).getD 0) ((data.get? (off + 1)).getD 0)

/-- Decode errors of the modelled decoder.  `rangeError` is the exception the
`Int16Array` constructor throws on a byte length that is not a multiple of 2;
`notSupported` is the `NotSupportedError` of `AudioContext.createBuffer`. -/
inductive DecodeErr where
  | rangeError (msg : String)
  | notSupported (msg : String)
deriving DecidableEq, Repr

/-- The decoded multi-channel buffer (the observable part of the `AudioBuffer`
returned by `decodeAudioData`): its sample rate and one planar sample list per
channel. -/
structure AudioBufferModel where
  sampleRate : Nat
  channels : List (List ℚ)
deriving DecidableEq, Repr

/-- One de-interleaving pass of the source's inner loop
`for (let i = 0; i < frameCount; i++) channelData[i] = dataInt16[i *
numChannels + channel] / 32768.0` for a fixed `channel`.
`frameLen` is the allocated `Float32Array` length (zero-initialised, stores at
an index `≥ frameLen` are ignored — typed-array store semantics — which
`List.set` matches exactly), and `iters` is the number of loop iterations,
i.e. the number of integers below the possibly fractional JS `frameCount`.
An out-of-range read of `dataInt16` yields `undefined` (`NaN` after division);
such a read only happens at an iteration `i ≥ frameLen`, whose store is
ignored, so the `getD 0` default is never observable. -/
def fillChannel (samples : List Int) (numChannels channel frameLen iters : Nat) :
    List ℚ :=
  (List.range iters).foldl
    (fun acc i =>
      acc.set i ((((samples.get? (i * numChannels + channel)).getD 0 : Int) : ℚ) / 32768))
    (List.replicate frameLen 0)

/-- `decodeAudioData` (Chatbot.tsx 58-75).  The two external steps are modelled
from their documented behaviour:
* `new Int16Array(data.buffer)` throws a `RangeError` when the byte length is
  odd, otherwise yields `int16Samples data`;
* `ctx.createBuffer(numChannels, frameCount, sampleRate)` converts the float
  `frameCount` to WebIDL `unsigned long` by truncating toward zero (so the
  allocated frame length is `samples.length / numChannels` in `Nat` division)
  and throws `NotSupportedError` when the channel count is outside 1..32, the
  truncated frame length is 0, or the sample rate is outside the nominal
  8000..96000 range (the source always passes 24000). -/
def decodeAudioData (data : List Nat) (sampleRate numChannels : Nat) :
    Except DecodeErr AudioBufferModel :=
  if data.length % 2 ≠ 0 then
    .error (.rangeError "byte length of Int16Array should be a multiple of 2")
  else
    let samples := int16Samples data
    let frameLen := samples.length / numChannels
    if numChannels = 0 ∨ 32 < numChannels ∨ frameLen = 0 ∨
        sampleRate < 8000 ∨ 96000 < sampleRate then
      .error (.notSupported "createBuffer argument outside the supported range")
    else
      let iters := (samples.length + numChannels - 1) / numChannels
      .ok
        { sampleRate := sampleRate
          channels := (List.range numChannels).map
            (fun channel => fillChannel samples numChannels channel frameLen iters) }

/-! ### The video-generation poll loop (`MazingiraAgent.generateVideo`, Chatbot.tsx 400-429)

The source submits a job (`veoAi.models.generateVideos`) and then loops:
`while (!operation.done) { await sleep(5000); operation = await
veoAi.operations.getVideosOperation(...) }`.  Afterwards it reads
`operation.response?.generatedVideos?.[0]?.video?.uri`; if that is falsy it
returns `null`, otherwise it fetches `downloadLink + "&key=" + API_KEY`,
wraps the body in a blob and returns `URL.createObjectURL(blob)`.  Every
throw inside the `try` is caught and converted to a resolved `null`. -/

/-- The observable part of a Veo operation object: its `done` flag and the
optional result locator `response?.generatedVideos?.[0]?.video?.uri`.
A completed-but-failed operation is `done` with no locator. -/
structure VideoOperation where
  done : Bool
  uri : Option String
deriving DecidableEq, Repr

/-- Outcome of one backend call that yields an operation object: either the
awaited operation or a thrown transport error. -/
inductive PollResult where
  | ok (op : VideoOperation)
  | fail (msg : String)
deriving DecidableEq, Repr

/-- How a JS promise settles: resolved with a value or rejected with an
error. -/
inductive JsOutcome (α : Type) where
  | resolved (a : α)
  | rejected (msg : String)
deriving DecidableEq, Repr

/-- Whether a promise outcome is a rejection. -/
def JsOutcome.isRejected {α : Type} : JsOutcome α → Bool
  | .rejected _ => true
  | .resolved _ => false

/-- The polling interval of the source loop (`setTimeout(resolve, 5000)`). -/
def POLL_INTERVAL_MS : Nat := 5000

/-- A `Running` status report: an operation that is not done yet. -/
def runningOp : VideoOperation := { done := false, uri := none }

/-- The `while (!operation.done)` loop.  `polls k` is the operation returned
by the `k`-th `getVideosOperation` call (0-based); `count` and `waited` are
the number of status queries issued so far and the total time slept so far.
`fuel` bounds the number of further iterations the model unrolls; `none`
means the loop has not terminated within `fuel` polls (the source loop is
unbounded).  A throw of `getVideosOperation` ends the loop with the error
(caught further out). -/
def pollUntilDone (polls : Nat → PollResult) :
    Nat → VideoOperation → Nat → Nat → Option (Nat × Nat × Except String VideoOperation)
  | fuel, op, count, waited =>
    if op.done then some (count, waited, .ok op)
    else
      match fuel, polls count with
      | 0, _ => none
      | _ + 1, .fail msg => some (count + 1, waited + POLL_INTERVAL_MS, .error msg)
      | fuel + 1, .ok op' =>
        pollUntilDone polls fuel op' (count + 1) (waited + POLL_INTERVAL_MS)

/-- Modelled from the browser API: the body fetched from a URL, identified by
the URL it was fetched from (the model never inspects the body). -/
def fetchBody (url : String) : String := url

/-- Modelled from the browser API: `URL.createObjectURL` returns a fresh URL
under the `blob:` scheme for the given blob; in particular its result is never
an `https:` URL. -/
def createObjectURL (blob : String) : String := "blob:" ++ blob

/-- `MazingiraAgent.generateVideo` (Chatbot.tsx 400-429), instrumented with
the number of status queries issued and the total milliseconds slept.
`submit` is the outcome of the initial `generateVideos` call, `polls` the
outcomes of the successive `getVideosOperation` calls, `apiKey` the value of
`process.env.API_KEY`.  `none` means the poll loop has not terminated within
`fuel` polls.  The `catch` block converts every thrown error into a resolved
`null`, and a falsy download link also resolves `null`. -/
def generateVideo (apiKey : String) (submit : PollResult)
    (polls : Nat → PollResult) (fuel : Nat) :
    Option (Nat × Nat × JsOutcome (Option String)) :=
  match submit with
  | .fail _ => some (0, 0, .resolved none)
  | .ok op0 =>
    (pollUntilDone polls fuel op0 0 0).map (fun r =>
      match r with
      | (count, waited, .error _) => (count, waited, .resolved none)
      | (count, waited, .ok op) =>
        match op.uri with
        | none => (count, waited, .resolved none)
        | some link =>
          if link = "" then (count, waited, .resolved none)
          else
            (count, waited,
              .resolved (some (createObjectURL (fetchBody (link ++ "&key=" ++ apiKey))))))

/-! ### The chat-stream consumer (`handleSend`, Chatbot.tsx 175-204)

The source iterates `for await (const chunk of response) { fullText +=
chunk.text; setMessages(... last message text = fullText ...) }`, starting
from `fullText = ''`.  Each `setMessages` call publishes the accumulator, so
the observable history is the list of accumulator values in publication
order. -/

/-- The streaming loop of `handleSend`: fold the arriving fragments into the
accumulator, recording every published intermediate value.  The first
component is the final `fullText`, the second the published snapshots in
order (snapshot `k` is published before fragment `k+1` is applied). -/
def consumeStream (frags : List String) : String × List String :=
  frags.foldl (fun acc f => (acc.1 ++ f, acc.2 ++ [acc.1 ++ f])) ("", [])

/-! ### The status log (`addLog`, App.tsx 39-41) -/

/-- The entry text built by `addLog`:
`` `[${new Date().toLocaleTimeString()}] ${msg}` ``; the clock reading is
passed in as `time`. -/
def formatLogEntry (time msg : String) : String :=
  "[" ++ time ++ "] " ++ msg

/-- `addLog` (App.tsx 39-41): `setAgentLog(prev => [entry, ...prev.slice(0,
19)])` — prepend the new entry and keep only the first 19 previous entries. -/
def addLog (time msg : String) (prev : List String) : List String :=
  formatLogEntry time msg :: prev.take 19

/-! ### CSV export (`handleExportCSV`, App.tsx 111-133)

The CSV text is `[headers.join(","), ...rows.map(r => r.join(","))]
.join("\n")` (the `data:text/csv;charset=utf-8,` prefix and the
`encodeURI`/anchor-click download are transport, not part of the CSV text).
The timestamp rendering `new Date(t).toISOString()` and the JS
number-to-string conversion of `confidence` are external (`Date` /
`Number.prototype.toString`) and are passed in as functions. -/

/-- `Array.prototype.join(sep)` on a list of strings. -/
def joinWith (sep : String) : List String → String
  | [] => ""
  | [x] => x
  | x :: xs => x ++ sep ++ joinWith sep xs

/-- `String.prototype.replace(/"/g, '""')`: every double quote becomes two
double quotes. -/
def escapeQuotes (s : String) : String :=
  ⟨s.data.foldr (fun c acc => if c = '"' then '"' :: '"' :: acc else c :: acc) []⟩

/-- `headers.join(",")` with `headers = ['ID', 'Timestamp', 'Type',
'Severity', 'Region', 'Status', 'Confidence', 'Description']`. -/
def csvHeader : String :=
  "ID,Timestamp,Type,Severity,Region,Status,Confidence,Description"

/-- The eight row fields of one incident, in source order, before the `,`
join; the description is wrapped in double quotes with inner quotes
escaped. -/
def csvFields (toIso : Nat → String) (showNum : ℚ → String)
    (inc : IncidentReport) : List String :=
  [inc.id, toIso inc.timestamp, inc.type, inc.severity, inc.location.region,
    inc.status, showNum inc.confidence,
    "\"" ++ escapeQuotes inc.description ++ "\""]

/-- One data row: `r.join(",")`. -/
def csvRow (toIso : Nat → String) (showNum : ℚ → String)
    (inc : IncidentReport) : String :=
  joinWith "," (csvFields toIso showNum inc)

/-- The CSV text produced by `handleExportCSV` for a non-empty incident list
(for an empty list the handler returns without producing anything). -/
def csvContent (toIso : Nat → String) (showNum : ℚ → String)
    (incidents : List IncidentReport) : String :=
  joinWith "\n" (csvHeader :: incidents.map (csvRow toIso showNum))

/-- Number of newline characters in a string; a string with `n` newline
characters prints as `n + 1` lines. -/
def newlineCount (s : String) : Nat :=
  s.data.countP (fun c => c = '\n')

/-- `true` when the string contains no newline character. -/
def noNewline (s : String) : Bool :=
  s.data.all (fun c => c ≠ '\n')

/-- `true` when every string entering one incident's CSV row (its eight raw
field renderings, before quoting/escaping) is free of newline characters. -/
def rowInputsNewlineFree (toIso : Nat → String) (showNum : ℚ → String)
    (inc : IncidentReport) : Bool :=
  noNewline inc.id && noNewline (toIso inc.timestamp) && noNewline inc.type &&
    noNewline inc.severity && noNewline inc.location.region &&
    noNewline inc.status && noNewline (showNum inc.confidence) &&
    noNewline inc.description

/-- The de-interleaving fold of `fillChannel`, abstracted over the value
written at each index: successive `set` calls at indices `0, 1, …, n-1`. -/
def setAll (f : Nat → ℚ) (n : Nat) (init : List ℚ) : List ℚ :=
  (List.range n).foldl (fun acc i => acc.set i (f i)) init

/-! ### Feedback submission (`handleFeedbackSubmit`, App.tsx 92-101) -/

/-- `handleFeedbackSubmit` (App.tsx 92-101): map over the incident list,
attaching the feedback to every incident whose id matches and setting its
status to `'False Positive'` when the rating is `'Incorrect'` and to
`'Threat Confirmed'` otherwise; all other incidents pass through
unchanged. -/
def handleFeedbackSubmit (id : String) (feedback : FieldFeedback)
    (incidents : List IncidentReport) : List IncidentReport :=
  incidents.map (fun inc =>
    if inc.id = id then
      { inc with
        feedback := some feedback
        status :=
          if feedback.accuracyRating = "Incorrect" then "False Positive"
          else "Threat Confirmed" }
    else inc)

/-! ## Helper lemmas -/

theorem foldl_str_append (l : List String) (s : String) :
    l.foldl (· ++ ·) s = s ++ String.join l := by
  induction l generalizing s with
  | nil => simp [String.join, String.append_empty]
  | cons x xs ih =>
    have hx : String.join (x :: xs) = x ++ String.join xs := by
      show (x :: xs).foldl (· ++ ·) "" = x ++ String.join xs
      simp only [List.foldl]
      rw [ih ("" ++ x), String.empty_append]
    simp only [List.foldl]
    rw [ih (s ++ x), hx, String.append_assoc]

theorem string_join_cons (x : String) (xs : List String) :
    String.join (x :: xs) = x ++ String.join xs := by
  show (x :: xs).foldl (· ++ ·) "" = x ++ String.join xs
  simp only [List.foldl]
  rw [foldl_str_append xs ("" ++ x), String.empty_append]

/-! ## Claim theorems -/

/-- Claim C1: `analyzeImagery` materializes an incident record (and hence the
caller stores one) exactly when the decoded result has a non-empty `type`
(category) and `confidence ≥ 0.4`; in particular a decoded result with
confidence `0.39` or an empty category yields `null` and a decoded result
with confidence `0.40` and a non-empty category yields a stored record. -/
theorem analyzeImagery_materializes_iff (env : AnalysisEnv)
    (img region : String) (data : AnalysisData) (chunks : List GroundingChunk) :
    ((∃ r, analyzeImagery env img region (.parsed data chunks) = some r) ↔
      (data.type ≠ "" ∧ (0.4 : ℚ) ≤ data.confidence)) ∧
    (∀ prev : List IncidentReport,
      storeAfterAnalysis (analyzeImagery env img region (.parsed data chunks)) prev ≠ prev ↔
        (data.type ≠ "" ∧ (0.4 : ℚ) ≤ data.confidence)) := by
  have hmain : (∃ r, analyzeImagery env img region (.parsed data chunks) = some r) ↔
      (data.type ≠ "" ∧ (0.4 : ℚ) ≤ data.confidence) := by
    by_cases h : data.type = "" ∨ data.confidence < 0.4
    · simp only [analyzeImagery, if_pos h]
      constructor
      · rintro ⟨r, hr⟩; cases hr
      · rintro ⟨ht, hc⟩
        rcases h with h | h
        · exact absurd h ht
        · exact absurd hc (not_le_of_lt h)
    · have h' := h
      push_neg at h'
      simp only [analyzeImagery, if_neg h]
      exact ⟨fun _ => h', fun _ => ⟨_, rfl⟩⟩
  refine ⟨hmain, fun prev => ?_⟩
  rcases hr : analyzeImagery env img region (.parsed data chunks) with _ | r
  · simp only [storeAfterAnalysis, ne_eq, not_true_eq_false, false_iff]
    rw [← hmain]
    rintro ⟨r, hr'⟩
    rw [hr] at hr'; cases hr'
  · simp only [storeAfterAnalysis]
    constructor
    · intro _; rw [← hmain]; exact ⟨r, hr⟩
    · intro _ hcontra
      have := congrArg List.length hcontra
      simp at this

/-- Claim C2 counterexample: the `null` that `analyzeImagery` returns after a
thrown transport error is the very same observable the caller gets for a
valid decoded result below the confidence threshold — the two outcomes are
equal (`none`), so no caller can tell them apart. -/
theorem analyzeImagery_error_null_cex :
    analyzeImagery ⟨"id0", 0, 0, 0⟩ "img" "Mau Forest" (.transportError "network failure")
      = analyzeImagery ⟨"id0", 0, 0, 0⟩ "img" "Mau Forest"
          (.parsed ⟨"Illegal Logging", "High", "desc", 39 / 100, ⟨"h", [], [], "c"⟩⟩ []) ∧
    analyzeImagery ⟨"id0", 0, 0, 0⟩ "img" "Mau Forest"
        (.parsed ⟨"Illegal Logging", "High", "desc", 39 / 100, ⟨"h", [], [], "c"⟩⟩ []) = none := by
  constructor
  · have : ((39 : ℚ) / 100) < 0.4 := by norm_num
    simp [analyzeImagery, this]
  · have : ((39 : ℚ) / 100) < 0.4 := by norm_num
    simp [analyzeImagery, this]

/-- Claim C2 (amended): every transport or parse error during analysis is
caught at the facade and converted to the same `null` that a valid
below-threshold result produces; the caller observes no difference between
the two. -/
theorem analyzeImagery_error_to_null (env : AnalysisEnv)
    (img region msg : String) (data : AnalysisData) (chunks : List GroundingChunk)
    (h : data.confidence < 0.4) :
    analyzeImagery env img region (.transportError msg) = none ∧
    analyzeImagery env img region (.parseError msg) = none ∧
    analyzeImagery env img region (.parsed data chunks) =
      analyzeImagery env img region (.transportError msg) := by
  refine ⟨rfl, rfl, ?_⟩
  simp [analyzeImagery, Or.inr h]

/-- Claim C2 (amended) witness at a concrete sub-threshold result. -/
theorem analyzeImagery_error_to_null_witness :
    analyzeImagery ⟨"w", 1, 0, 0⟩ "i" "Tsavo East" (.transportError "boom") = none ∧
    analyzeImagery ⟨"w", 1, 0, 0⟩ "i" "Tsavo East" (.parseError "boom") = none ∧
    analyzeImagery ⟨"w", 1, 0, 0⟩ "i" "Tsavo East"
        (.parsed ⟨"Poaching Camp", "Low", "d", 1 / 10, ⟨"h", [], [], "c"⟩⟩ []) =
      analyzeImagery ⟨"w", 1, 0, 0⟩ "i" "Tsavo East" (.transportError "boom") :=
  analyzeImagery_error_to_null ⟨"w", 1, 0, 0⟩ "i" "Tsavo East" "boom"
    ⟨"Poaching Camp", "Low", "d", 1 / 10, ⟨"h", [], [], "c"⟩⟩ [] (by norm_num)

theorem consumeStream_fold (frags : List String) (a : String) (p : List String) :
    frags.foldl (fun acc f => (acc.1 ++ f, acc.2 ++ [acc.1 ++ f])) (a, p) =
      (a ++ String.join frags,
        p ++ (List.range frags.length).map
          (fun k => a ++ String.join (frags.take (k + 1)))) := by
  induction frags generalizing a p with
  | nil => simp [String.join, String.append_empty]
  | cons f rest ih =>
    simp only [List.foldl]
    rw [ih (a ++ f) (p ++ [a ++ f])]
    refine Prod.ext ?_ ?_
    · simp only
      rw [string_join_cons, String.append_assoc]
    · simp only [List.length_cons, List.range_succ_eq_map, List.map_cons,
        List.map_map, List.append_assoc, List.singleton_append]
      have htail :
          List.map ((fun k => a ++ String.join (List.take (k + 1) (f :: rest))) ∘ Nat.succ)
              (List.range rest.length) =
            List.map (fun k => a ++ f ++ String.join (List.take (k + 1) rest))
              (List.range rest.length) :=
        List.map_congr_left fun k _ => by
          simp only [Function.comp_apply, Nat.succ_eq_add_one, List.take_succ_cons,
            string_join_cons, String.append_assoc]
      rw [htail]
      rfl

/-- Claim C7: the streaming consumer of `handleSend` accumulates the arriving
fragments in order: the final transcript is the concatenation of all
fragments (empty fragments included), exactly one snapshot is published per
fragment, and the snapshot published after the first `k + 1` fragments — i.e.
before fragment `k + 2` is applied — is the concatenation of the first
`k + 1` fragments, so no fragment is skipped or reordered. -/
theorem handleSend_stream_accumulates (frags : List String) (k : Nat)
    (hk : k < frags.length) :
    (consumeStream frags).1 = String.join frags ∧
    (consumeStream frags).2.length = frags.length ∧
    (consumeStream frags).2.get? k = some (String.join (frags.take (k + 1))) := by
  unfold consumeStream
  rw [consumeStream_fold frags "" []]
  refine ⟨String.empty_append _, by simp, ?_⟩
  rw [List.nil_append, List.get?_map, List.get?_range hk]
  simp [String.empty_append]

/-- Claim C7 witness: three fragments, one of them empty. -/
theorem handleSend_stream_accumulates_witness :
    (consumeStream ["ab", "", "c"]).1 = String.join ["ab", "", "c"] ∧
    (consumeStream ["ab", "", "c"]).2.length = (["ab", "", "c"] : List String).length ∧
    (consumeStream ["ab", "", "c"]).2.get? 1 =
      some (String.join ((["ab", "", "c"] : List String).take 2)) :=
  handleSend_stream_accumulates ["ab", "", "c"] 1 (by decide)

/-- Claim C8: `addLog` prepends the newly generated entry (newest first), the
previous entries keep their order shifted by one, every entry beyond the 20
most recent is evicted, and the resulting log never exceeds 20 entries
whatever the length of the previous log. -/
theorem addLog_spec (time msg : String) (prev : List String) :
    (addLog time msg prev).head? = some (formatLogEntry time msg) ∧
    (addLog time msg prev).length = min (prev.length + 1) 20 ∧
    (addLog time msg prev).length ≤ 20 ∧
    (∀ i, i < 19 → (addLog time msg prev).get? (i + 1) = prev.get? i) ∧
    (∀ i, 19 ≤ i → (addLog time msg prev).get? (i + 1) = none) := by
  refine ⟨rfl, ?_, ?_, ?_, ?_⟩
  · simp only [addLog, List.length_cons, List.length_take]
    omega
  · simp only [addLog, List.length_cons, List.length_take]
    omega
  · intro i hi
    simp only [addLog, List.get?_cons_succ]
    exact List.get?_take hi
  · intro i hi
    simp only [addLog, List.get?_cons_succ]
    exact List.get?_eq_none.mpr (by simp only [List.length_take]; omega)

/-- Claim C8 witness: appending to a 25-entry log yields a 20-entry log with
the new entry first, entry 5 of the old log at position 6, and nothing at
position 20. -/
theorem addLog_spec_witness :
    (addLog "10:00" "msg" (List.replicate 25 "x")).head? =
      some (formatLogEntry "10:00" "msg") ∧
    (addLog "10:00" "msg" (List.replicate 25 "x")).length = 20 ∧
    (addLog "10:00" "msg" (List.replicate 25 "x")).get? 6 =
      (List.replicate 25 "x").get? 5 ∧
    (addLog "10:00" "msg" (List.replicate 25 "x")).get? 20 = none := by
  have h := addLog_spec "10:00" "msg" (List.replicate 25 "x")
  exact ⟨h.1, by rw [h.2.1]; decide, h.2.2.2.1 5 (by decide), h.2.2.2.2 19 (by decide)⟩

/-- Claim C10: submitting feedback for incident id `id` updates exactly the
incidents carrying that id — attaching the feedback and setting the status to
`"False Positive"` precisely when the rating is `"Incorrect"` and to
`"Threat Confirmed"` otherwise, leaving every other field of the updated
incident and every incident with a different id completely unchanged; the
list length and order are preserved. -/
theorem handleFeedbackSubmit_spec (id : String) (fb : FieldFeedback)
    (incs : List IncidentReport) :
    (handleFeedbackSubmit id fb incs).length = incs.length ∧
    ∀ i inc, incs.get? i = some inc →
      (inc.id ≠ id → (handleFeedbackSubmit id fb incs).get? i = some inc) ∧
      (inc.id = id → (handleFeedbackSubmit id fb incs).get? i =
        some { inc with
          feedback := some fb
          status :=
            if fb.accuracyRating = "Incorrect" then "False Positive"
            else "Threat Confirmed" }) := by
  refine ⟨by simp [handleFeedbackSubmit], ?_⟩
  intro i inc hi
  constructor
  · intro hne
    rw [handleFeedbackSubmit, List.get?_map, hi]
    simp [if_neg hne]
  · intro heq
    rw [handleFeedbackSubmit, List.get?_map, hi]
    simp [if_pos heq]

/-- Claim C10 witness: a two-incident list where feedback with rating
`"Incorrect"` targets the first incident; the first becomes a
`"False Positive"` carrying the feedback and the second is untouched. -/
theorem handleFeedbackSubmit_spec_witness :
    (handleFeedbackSubmit "a1" ⟨some false, "Incorrect", "nothing there", "Ranger-KWS-HQ", 99⟩
        [⟨"a1", 5, "Illegal Logging", "High", ⟨0, 0, "Mau Forest"⟩, "d1", 9 / 10, none,
            "Alerted", none, [], none⟩,
          ⟨"b2", 6, "Poaching Camp", "Low", ⟨1, 1, "Tsavo East"⟩, "d2", 1 / 2, none,
            "Detected", none, [], none⟩]).length = 2 ∧
    (handleFeedbackSubmit "a1" ⟨some false, "Incorrect", "nothing there", "Ranger-KWS-HQ", 99⟩
        [⟨"a1", 5, "Illegal Logging", "High", ⟨0, 0, "Mau Forest"⟩, "d1", 9 / 10, none,
            "Alerted", none, [], none⟩,
          ⟨"b2", 6, "Poaching Camp", "Low", ⟨1, 1, "Tsavo East"⟩, "d2", 1 / 2, none,
            "Detected", none, [], none⟩]).get? 1 =
      some ⟨"b2", 6, "Poaching Camp", "Low", ⟨1, 1, "Tsavo East"⟩, "d2", 1 / 2, none,
        "Detected", none, [], none⟩ ∧
    (handleFeedbackSubmit "a1" ⟨some false, "Incorrect", "nothing there", "Ranger-KWS-HQ", 99⟩
        [⟨"a1", 5, "Illegal Logging", "High", ⟨0, 0, "Mau Forest"⟩, "d1", 9 / 10, none,
            "Alerted", none, [], none⟩,
          ⟨"b2", 6, "Poaching Camp", "Low", ⟨1, 1, "Tsavo East"⟩, "d2", 1 / 2, none,
            "Detected", none, [], none⟩]).get? 0 =
      some ⟨"a1", 5, "Illegal Logging", "High", ⟨0, 0, "Mau Forest"⟩, "d1", 9 / 10, none,
        "False Positive", none, [],
        some ⟨some false, "Incorrect", "nothing there", "Ranger-KWS-HQ", 99⟩⟩ := by
  have h := handleFeedbackSubmit_spec "a1"
    ⟨some false, "Incorrect", "nothing there", "Ranger-KWS-HQ", 99⟩
    [⟨"a1", 5, "Illegal Logging", "High", ⟨0, 0, "Mau Forest"⟩, "d1", 9 / 10, none,
        "Alerted", none, [], none⟩,
      ⟨"b2", 6, "Poaching Camp", "Low", ⟨1, 1, "Tsavo East"⟩, "d2", 1 / 2, none,
        "Detected", none, [], none⟩]
  refine ⟨by rw [h.1]; rfl, ?_, ?_⟩
  · exact (h.2 1 _ rfl).1 (by decide)
  · rw [(h.2 0 _ rfl).2 rfl]
    rfl

theorem newlineCount_append (s t : String) :
    newlineCount (s ++ t) = newlineCount s + newlineCount t := by
  simp [newlineCount, String.data_append, List.countP_append]

theorem newlineCount_eq_zero {s : String} (h : noNewline s = true) :
    newlineCount s = 0 := by
  rw [newlineCount, List.countP_eq_zero]
  intro c hc
  have hnc := List.all_eq_true.mp h c hc
  simp at hnc ⊢
  exact hnc

theorem escapeQuotes_data (s : String) :
    (escapeQuotes s).data =
      s.data.flatMap (fun c => if c = '"' then ['"', '"'] else [c]) := by
  show (s.data.foldr (fun c acc => if c = '"' then '"' :: '"' :: acc else c :: acc) []) = _
  induction s.data with
  | nil => rfl
  | cons c cs ih =>
    by_cases hc : c = '"' <;> simp [hc, ih]

theorem noNewline_append (s t : String) :
    noNewline (s ++ t) = (noNewline s && noNewline t) := by
  simp [noNewline, String.data_append, List.all_append]

theorem noNewline_escapeQuotes {s : String} (h : noNewline s = true) :
    noNewline (escapeQuotes s) = true := by
  rw [noNewline, escapeQuotes_data, List.all_eq_true]
  intro c hc
  rw [List.mem_flatMap] at hc
  obtain ⟨a, ha, hca⟩ := hc
  by_cases hq : a = '"'
  · simp [hq] at hca
    simp [hca]
  · simp [hq] at hca
    subst hca
    exact List.all_eq_true.mp h _ ha

theorem newlineCount_joinWith {sep : String} (hsep : noNewline sep = true) :
    ∀ l : List String, (∀ s ∈ l, noNewline s = true) → newlineCount (joinWith sep l) = 0
  | [], _ => by rfl
  | [x], h => newlineCount_eq_zero (h x (by simp))
  | x :: y :: rest, h => by
    show newlineCount (x ++ sep ++ joinWith sep (y :: rest)) = 0
    rw [newlineCount_append, newlineCount_append]
    rw [newlineCount_eq_zero (h x (by simp)), newlineCount_eq_zero hsep,
      newlineCount_joinWith hsep (y :: rest) (fun s hs => h s (by simp [hs]))]

theorem noNewline_csvFields (toIso : Nat → String) (showNum : ℚ → String)
    (inc : IncidentReport) (h : rowInputsNewlineFree toIso showNum inc = true) :
    ∀ s ∈ csvFields toIso showNum inc, noNewline s = true := by
  simp only [rowInputsNewlineFree, Bool.and_eq_true] at h
  obtain ⟨⟨⟨⟨⟨⟨⟨h1, h2⟩, h3⟩, h4⟩, h5⟩, h6⟩, h7⟩, h8⟩ := h
  intro s hs
  simp only [csvFields, List.mem_cons, List.not_mem_nil, or_false] at hs
  rcases hs with hs | hs | hs | hs | hs | hs | hs | hs <;> subst hs
  · exact h1
  · exact h2
  · exact h3
  · exact h4
  · exact h5
  · exact h6
  · exact h7
  · rw [noNewline_append, noNewline_append, noNewline_escapeQuotes h8]
    decide

theorem newlineCount_csvRow (toIso : Nat → String) (showNum : ℚ → String)
    (inc : IncidentReport) (h : rowInputsNewlineFree toIso showNum inc = true) :
    newlineCount (csvRow toIso showNum inc) = 0 :=
  newlineCount_joinWith (by decide) _ (noNewline_csvFields toIso showNum inc h)

/-- Claim C9 counterexample: for two records whose first description contains
a newline character, the exported CSV text contains 3 newline characters,
i.e. 4 physical lines rather than the claimed exactly 3 — the quoted
description spills onto a second physical line. -/
theorem csvContent_newline_cex :
    newlineCount (csvContent (fun _ => "1970-01-01T00:00:00.000Z") (fun _ => "0.9")
      [⟨"a", 0, "Illegal Logging", "High", ⟨0, 0, "Mau Forest"⟩, "line1\nline2", 9 / 10,
          none, "Detected", none, [], none⟩,
        ⟨"b", 0, "Poaching Camp", "Low", ⟨0, 0, "Mau Forest"⟩, "ok", 1 / 2, none,
          "Detected", none, [], none⟩]) = 3 ∧
    ¬newlineCount (csvContent (fun _ => "1970-01-01T00:00:00.000Z") (fun _ => "0.9")
      [⟨"a", 0, "Illegal Logging", "High", ⟨0, 0, "Mau Forest"⟩, "line1\nline2", 9 / 10,
          none, "Detected", none, [], none⟩,
        ⟨"b", 0, "Poaching Camp", "Low", ⟨0, 0, "Mau Forest"⟩, "ok", 1 / 2, none,
          "Detected", none, [], none⟩]) = 2 := by
  constructor <;> decide

/-- Claim C9 (amended): for two records all of whose rendered fields are free
of newline characters, the CSV export is the fixed header line (columns
`ID,Timestamp,Type,Severity,Region,Status,Confidence,Description`) followed
by the two data rows — exactly 3 lines (2 newline separators) — and each
description travels in a double-quoted field in which every double quote of
the original description is escaped as two double quotes. -/
theorem csvContent_two_records (toIso : Nat → String) (showNum : ℚ → String)
    (a b : IncidentReport)
    (ha : rowInputsNewlineFree toIso showNum a = true)
    (hb : rowInputsNewlineFree toIso showNum b = true) :
    csvContent toIso showNum [a, b] =
      csvHeader ++ "\n" ++ csvRow toIso showNum a ++ "\n" ++ csvRow toIso showNum b ∧
    newlineCount (csvContent toIso showNum [a, b]) = 2 ∧
    (csvFields toIso showNum a).get? 7 =
      some ("\"" ++ escapeQuotes a.description ++ "\"") ∧
    (escapeQuotes a.description).data =
      a.description.data.flatMap (fun c => if c = '"' then ['"', '"'] else [c]) ∧
    (escapeQuotes b.description).data =
      b.description.data.flatMap (fun c => if c = '"' then ['"', '"'] else [c]) := by
  have hshape : csvContent toIso showNum [a, b] =
      csvHeader ++ "\n" ++ csvRow toIso showNum a ++ "\n" ++ csvRow toIso showNum b := by
    show joinWith "\n" [csvHeader, csvRow toIso showNum a, csvRow toIso showNum b] = _
    show csvHeader ++ "\n" ++
        (csvRow toIso showNum a ++ "\n" ++ joinWith "\n" [csvRow toIso showNum b]) = _
    show csvHeader ++ "\n" ++
        (csvRow toIso showNum a ++ "\n" ++ csvRow toIso showNum b) = _
    simp [String.append_assoc]
  refine ⟨hshape, ?_, rfl, escapeQuotes_data a.description, escapeQuotes_data b.description⟩
  rw [hshape, newlineCount_append, newlineCount_append, newlineCount_append,
    newlineCount_append, newlineCount_csvRow toIso showNum a ha,
    newlineCount_csvRow toIso showNum b hb]
  decide

/-- Claim C9 (amended) witness at two concrete newline-free records, one
description containing a double quote. -/
theorem csvContent_two_records_witness :
    newlineCount (csvContent (fun _ => "1970-01-01T00:00:00.000Z") (fun _ => "0.9")
      [⟨"a", 0, "Illegal Logging", "High", ⟨0, 0, "Mau Forest"⟩, "has \"quotes\"", 9 / 10,
          none, "Detected", none, [], none⟩,
        ⟨"b", 0, "Poaching Camp", "Low", ⟨0, 0, "Mau Forest"⟩, "ok", 1 / 2, none,
          "Detected", none, [], none⟩]) = 2 :=
  (csvContent_two_records (fun _ => "1970-01-01T00:00:00.000Z") (fun _ => "0.9")
    ⟨"a", 0, "Illegal Logging", "High", ⟨0, 0, "Mau Forest"⟩, "has \"quotes\"", 9 / 10,
      none, "Detected", none, [], none⟩
    ⟨"b", 0, "Poaching Camp", "Low", ⟨0, 0, "Mau Forest"⟩, "ok", 1 / 2, none,
      "Detected", none, [], none⟩ (by decide) (by decide)).2.1

theorem int16Samples_length : ∀ data : List Nat,
    (int16Samples data).length = data.length / 2
  | [] => rfl
  | [_] => by simp [int16Samples]
  | lo :: hi :: rest => by
    show (int16OfBytes lo hi :: int16Samples rest).length = (rest.length + 2) / 2
    simp only [List.length_cons, int16Samples_length rest]
    omega

theorem int16Samples_get? : ∀ (data : List Nat) (j : Nat), 2 * j + 1 < data.length →
    (int16Samples data).get? j = some (int16At data (2 * j))
  | [], j, h => by simp at h
  | [_], j, h => by
    simp only [List.length_cons, List.length_nil] at h
    omega
  | lo :: hi :: rest, 0, _ => by
    show (int16OfBytes lo hi :: int16Samples rest).get? 0 =
      some (int16At (lo :: hi :: rest) 0)
    simp [int16At]
  | lo :: hi :: rest, j + 1, h => by
    have ih := int16Samples_get? rest j
      (by simp only [List.length_cons] at h; omega)
    show (int16OfBytes lo hi :: int16Samples rest).get? (j + 1) =
      some (int16At (lo :: hi :: rest) (2 * (j + 1)))
    rw [List.get?_cons_succ, ih]
    have h2 : 2 * (j + 1) = 2 * j + 2 := by ring
    rw [h2]
    rfl

theorem setAll_length (f : Nat → ℚ) (n : Nat) (init : List ℚ) :
    (setAll f n init).length = init.length := by
  induction n with
  | zero => rfl
  | succ n ih =>
    unfold setAll at ih ⊢
    rw [List.range_succ, List.foldl_append]
    simp [ih]

theorem setAll_get? (f : Nat → ℚ) (n : Nat) (init : List ℚ) (j : Nat) :
    (setAll f n init).get? j =
      if j < n ∧ j < init.length then some (f j) else init.get? j := by
  induction n with
  | zero => simp [setAll]
  | succ n ih =>
    unfold setAll at ih ⊢
    rw [List.range_succ, List.foldl_append]
    simp only [List.foldl_cons, List.foldl_nil]
    rw [List.get?_set, ih]
    by_cases hnj : n = j
    · subst hnj
      rw [if_pos rfl]
      by_cases hl : n < init.length
      · rw [if_neg (by omega : ¬(n < n ∧ n < init.length)),
          if_pos (⟨by omega, hl⟩ : n < n + 1 ∧ n < init.length)]
        rcases ho : init.get? n with _ | v
        · rw [List.get?_eq_none] at ho; omega
        · rfl
      · rw [if_neg (by omega : ¬(n < n ∧ n < init.length)),
          if_neg (fun hcon => hl hcon.2)]
        have hnone : init.get? n = none := List.get?_eq_none.mpr (by omega)
        rw [hnone]; rfl
    · rw [if_neg hnj]
      by_cases hcase : j < n ∧ j < init.length
      · rw [if_pos hcase, if_pos (⟨by omega, hcase.2⟩ : j < n + 1 ∧ j < init.length)]
      · rw [if_neg hcase,
          if_neg (fun hcon => hcase ⟨by omega, hcon.2⟩)]

theorem fillChannel_eq_setAll (samples : List Int) (nc c fl it : Nat) :
    fillChannel samples nc c fl it =
      setAll (fun i => (((samples.get? (i * nc + c)).getD 0 : Int) : ℚ) / 32768) it
        (List.replicate fl 0) := rfl

theorem fillChannel_length (samples : List Int) (nc c fl it : Nat) :
    (fillChannel samples nc c fl it).length = fl := by
  rw [fillChannel_eq_setAll, setAll_length, List.length_replicate]

theorem fillChannel_get? (samples : List Int) (nc c fl it j : Nat)
    (hj : j < fl) (hfl : fl ≤ it) :
    (fillChannel samples nc c fl it).get? j =
      some ((((samples.get? (j * nc + c)).getD 0 : Int) : ℚ) / 32768) := by
  rw [fillChannel_eq_setAll, setAll_get?]
  rw [if_pos (⟨by omega, by rw [List.length_replicate]; omega⟩ :
    j < it ∧ j < (List.replicate fl (0 : ℚ)).length)]

/-- Claim C3 counterexample: a 6-byte buffer decoded with `channelCount = 2`
has a byte length that is not a multiple of `2 × channelCount = 4`, yet
decoding does not fail — it succeeds and returns a truncated (1-frame)
buffer, i.e. a partial buffer rather than a `DecodeError`. -/
theorem decodeAudioData_truncation_cex :
    6 % (2 * 2) ≠ 0 ∧
    decodeAudioData [0, 0, 0, 0, 0, 0] 24000 2 =
      .ok { sampleRate := 24000, channels := [[0], [0]] } := by
  refine ⟨by decide, ?_⟩
  show (Except.ok (⟨24000, [[((0 : Int) : ℚ) / 32768], [((0 : Int) : ℚ) / 32768]]⟩ :
      AudioBufferModel) : Except DecodeErr AudioBufferModel) =
    Except.ok (⟨24000, [[0], [0]]⟩ : AudioBufferModel)
  norm_num

/-- Claim C3 (amended): with a valid channel count (1..32) and the sample
rate 24000 the source always uses, decoding fails exactly when the byte
length is odd (the `Int16Array` constructor throws) or the buffer holds fewer
than `2 × channelCount` bytes (a zero-frame buffer cannot be allocated); an
even byte length of at least `2 × channelCount` bytes that is not a multiple
of `2 × channelCount` does NOT fail — the trailing fraction of a frame is
silently dropped. -/
theorem decodeAudioData_ok_iff (data : List Nat) (nc : Nat)
    (h1 : 1 ≤ nc) (h2 : nc ≤ 32) :
    (∃ buf, decodeAudioData data 24000 nc = .ok buf) ↔
      (data.length % 2 = 0 ∧ 2 * nc ≤ data.length) := by
  have hslen := int16Samples_length data
  unfold decodeAudioData
  by_cases he : data.length % 2 ≠ 0
  · rw [if_pos he]
    constructor
    · rintro ⟨buf, hbuf⟩; cases hbuf
    · intro hcon; omega
  · rw [if_neg he]
    dsimp only
    push_neg at he
    by_cases hz : (int16Samples data).length / nc = 0
    · rw [if_pos (Or.inr (Or.inr (Or.inl hz)))]
      constructor
      · rintro ⟨buf, hbuf⟩; cases hbuf
      · intro hcon
        rw [Nat.div_eq_zero_iff (by omega)] at hz
        omega
    · rw [if_neg (by
        push_neg
        exact ⟨by omega, by omega, hz, by omega, by omega⟩)]
      constructor
      · intro _
        refine ⟨he, ?_⟩
        rw [Nat.div_eq_zero_iff (by omega)] at hz
        push_neg at hz
        omega
      · intro _
        exact ⟨_, rfl⟩

/-- Claim C3 (amended) witness: 6 bytes with 2 channels decode successfully
(6 is even and at least 4), matching the success side of the iff. -/
theorem decodeAudioData_ok_iff_witness :
    (∃ buf, decodeAudioData [0, 0, 0, 0, 0, 0] 24000 2 = .ok buf) ∧
    (([0, 0, 0, 0, 0, 0] : List Nat).length % 2 = 0 ∧
      2 * 2 ≤ ([0, 0, 0, 0, 0, 0] : List Nat).length) :=
  ⟨(decodeAudioData_ok_iff [0, 0, 0, 0, 0, 0] 2 (by decide) (by decide)).mpr
      (by decide),
    by decide⟩

/-- Claim C4: decoding a PCM16 little-endian buffer of length
`2 × channelCount × N` (with a valid channel count and at least one frame)
yields one planar buffer of exactly `N` frames per channel, and channel `c`
sample `i` equals the signed 16-bit little-endian integer at byte offset
`(i × channelCount + c) × 2`, divided by 32768 — in particular channel 0
sample `i` is `int16At data (i × channelCount × 2) / 32768`. -/
theorem decodeAudioData_pcm16 (data : List Nat) (nc N : Nat)
    (hnc1 : 1 ≤ nc) (hnc2 : nc ≤ 32) (hN : 1 ≤ N)
    (hlen : data.length = 2 * nc * N) :
    ∃ buf, decodeAudioData data 24000 nc = .ok buf ∧
      buf.sampleRate = 24000 ∧
      buf.channels.length = nc ∧
      ∀ c, c < nc → ∃ ch, buf.channels.get? c = some ch ∧ ch.length = N ∧
        ∀ i, i < N → ch.get? i =
          some ((int16At data ((i * nc + c) * 2) : ℚ) / 32768) := by
  have hslen : (int16Samples data).length = nc * N := by
    rw [int16Samples_length, hlen, Nat.mul_assoc]
    exact Nat.mul_div_cancel_left (nc * N) (by omega)
  have hfl : (int16Samples data).length / nc = N := by
    rw [hslen, Nat.mul_div_cancel_left N (by omega)]
  have hit : ((int16Samples data).length + nc - 1) / nc = N := by
    rw [hslen]
    have hsplit : nc * N + nc - 1 = nc * N + (nc - 1) := by omega
    rw [hsplit, Nat.mul_add_div (by omega), Nat.div_eq_of_lt (by omega)]
    omega
  have heven0 : data.length % 2 = 0 := by
    rw [hlen, Nat.mul_assoc]
    exact Nat.mul_mod_right 2 (nc * N)
  have heven : ¬data.length % 2 ≠ 0 := by omega
  have hdecode : decodeAudioData data 24000 nc =
      .ok { sampleRate := 24000,
            channels := (List.range nc).map (fun channel =>
              fillChannel (int16Samples data) nc channel
                ((int16Samples data).length / nc)
                (((int16Samples data).length + nc - 1) / nc)) } := by
    unfold decodeAudioData
    rw [if_neg heven]
    dsimp only
    rw [if_neg (by
      push_neg
      exact ⟨by omega, by omega, by rw [hfl]; omega, by omega, by omega⟩)]
  refine ⟨_, hdecode, rfl, by simp, ?_⟩
  intro c hc
  refine ⟨fillChannel (int16Samples data) nc c
      ((int16Samples data).length / nc)
      (((int16Samples data).length + nc - 1) / nc), ?_, ?_, ?_⟩
  · show ((List.range nc).map (fun channel =>
        fillChannel (int16Samples data) nc channel
          ((int16Samples data).length / nc)
          (((int16Samples data).length + nc - 1) / nc))).get? c = _
    rw [List.get?_map, List.get?_range hc]
    rfl
  · rw [fillChannel_length, hfl]
  · intro i hi
    rw [fillChannel_get? _ _ _ _ _ _ (by rw [hfl]; omega) (by rw [hfl, hit])]
    have hidx : 2 * (i * nc + c) + 1 < data.length := by
      have hstep : i * nc + c < nc * N := by
        calc i * nc + c < i * nc + nc := by omega
          _ = (i + 1) * nc := by ring
          _ ≤ N * nc := Nat.mul_le_mul_right nc (by omega)
          _ = nc * N := Nat.mul_comm N nc
      have hlen2 : data.length = 2 * (nc * N) := by rw [hlen, Nat.mul_assoc]
      omega
    have hget := int16Samples_get? data (i * nc + c) hidx
    rw [hget]
    simp only [Option.getD_some]
    rw [show 2 * (i * nc + c) = (i * nc + c) * 2 from Nat.mul_comm _ _]

/-- Claim C4 witness: the 4-byte mono buffer `[52, 18, 255, 255]` decodes to
the two frames `0x1234 / 32768` and `-1 / 32768`. -/
theorem decodeAudioData_pcm16_witness :
    ∃ buf, decodeAudioData [52, 18, 255, 255] 24000 1 = .ok buf ∧
      buf.sampleRate = 24000 ∧
      buf.channels.length = 1 ∧
      ∀ c, c < 1 → ∃ ch, buf.channels.get? c = some ch ∧ ch.length = 2 ∧
        ∀ i, i < 2 → ch.get? i =
          some ((int16At [52, 18, 255, 255] ((i * 1 + c) * 2) : ℚ) / 32768) :=
  decodeAudioData_pcm16 [52, 18, 255, 255] 1 2 (by decide) (by decide) (by decide)
    (by decide)

theorem pollUntilDone_step (polls : Nat → PollResult) (fuel : Nat)
    (op : VideoOperation) (count waited : Nat) :
    pollUntilDone polls fuel op count waited =
      if op.done then some (count, waited, .ok op)
      else
        match fuel, polls count with
        | 0, _ => none
        | _ + 1, .fail msg => some (count + 1, waited + POLL_INTERVAL_MS, .error msg)
        | fuel + 1, .ok op' =>
          pollUntilDone polls fuel op' (count + 1) (waited + POLL_INTERVAL_MS) := by
  rw [pollUntilDone.eq_def]

theorem pollUntilDone_run (polls : Nat → PollResult) (finalOp : VideoOperation)
    (hdone : finalOp.done = true) :
    ∀ (k fuel count waited : Nat), k < fuel →
      (∀ j, j < k → polls (count + j) = .ok runningOp) →
      polls (count + k) = .ok finalOp →
      pollUntilDone polls fuel runningOp count waited =
        some (count + k + 1, waited + (k + 1) * POLL_INTERVAL_MS, .ok finalOp)
  | 0, fuel, count, waited, hfuel, _, hlast => by
    obtain ⟨f, rfl⟩ : ∃ f, fuel = f + 1 := ⟨fuel - 1, by omega⟩
    rw [pollUntilDone_step, if_neg (by simp [runningOp])]
    rw [show count + 0 = count from rfl] at hlast
    rw [hlast]
    dsimp only
    rw [pollUntilDone_step, if_pos hdone]
    have e2 : waited + POLL_INTERVAL_MS = waited + (0 + 1) * POLL_INTERVAL_MS := by ring
    rw [e2]
  | k + 1, fuel, count, waited, hfuel, hrun, hlast => by
    obtain ⟨f, rfl⟩ : ∃ f, fuel = f + 1 := ⟨fuel - 1, by omega⟩
    rw [pollUntilDone_step, if_neg (by simp [runningOp])]
    have h0 : polls count = .ok runningOp := by
      have h := hrun 0 (by omega)
      rwa [show count + 0 = count from rfl] at h
    rw [h0]
    dsimp only
    have ih := pollUntilDone_run polls finalOp hdone k f (count + 1)
      (waited + POLL_INTERVAL_MS) (by omega)
      (fun j hj => by
        rw [show count + 1 + j = count + (j + 1) from by omega]
        exact hrun (j + 1) (by omega))
      (by
        rw [show count + 1 + k = count + (k + 1) from by omega]
        exact hlast)
    rw [ih]
    have e1 : count + 1 + k + 1 = count + (k + 1) + 1 := by omega
    have e2 : waited + POLL_INTERVAL_MS + (k + 1) * POLL_INTERVAL_MS =
        waited + (k + 1 + 1) * POLL_INTERVAL_MS := by ring
    rw [e1, e2]

theorem pollUntilDone_fail_run (polls : Nat → PollResult) (msg : String) :
    ∀ (k fuel count waited : Nat), k < fuel →
      (∀ j, j < k → polls (count + j) = .ok runningOp) →
      polls (count + k) = .fail msg →
      pollUntilDone polls fuel runningOp count waited =
        some (count + k + 1, waited + (k + 1) * POLL_INTERVAL_MS, .error msg)
  | 0, fuel, count, waited, hfuel, _, hlast => by
    obtain ⟨f, rfl⟩ : ∃ f, fuel = f + 1 := ⟨fuel - 1, by omega⟩
    rw [pollUntilDone_step, if_neg (by simp [runningOp])]
    rw [show count + 0 = count from rfl] at hlast
    rw [hlast]
    dsimp only
    have e2 : waited + POLL_INTERVAL_MS = waited + (0 + 1) * POLL_INTERVAL_MS := by ring
    rw [e2]
  | k + 1, fuel, count, waited, hfuel, hrun, hlast => by
    obtain ⟨f, rfl⟩ : ∃ f, fuel = f + 1 := ⟨fuel - 1, by omega⟩
    rw [pollUntilDone_step, if_neg (by simp [runningOp])]
    have h0 : polls count = .ok runningOp := by
      have h := hrun 0 (by omega)
      rwa [show count + 0 = count from rfl] at h
    rw [h0]
    dsimp only
    have ih := pollUntilDone_fail_run polls msg k f (count + 1)
      (waited + POLL_INTERVAL_MS) (by omega)
      (fun j hj => by
        rw [show count + 1 + j = count + (j + 1) from by omega]
        exact hrun (j + 1) (by omega))
      (by
        rw [show count + 1 + k = count + (k + 1) from by omega]
        exact hlast)
    rw [ih]
    have e1 : count + 1 + k + 1 = count + (k + 1) + 1 := by omega
    have e2 : waited + POLL_INTERVAL_MS + (k + 1) * POLL_INTERVAL_MS =
        waited + (k + 1 + 1) * POLL_INTERVAL_MS := by ring
    rw [e1, e2]

/-- Claim C5 counterexample: for a backend reporting `Running` on the first 2
polls and `Completed` (with declared locator `https://backend/video1`) on the
3rd, `generateVideo` does perform exactly 3 status queries at 5000 ms
spacing, but it resolves with a freshly created `blob:` object URL of the
fetched content (with the API key appended to the download request) — not
with the backend's declared result locator itself. -/
theorem generateVideo_locator_cex :
    generateVideo "K" (.ok runningOp)
      (fun k => if k < 2 then .ok runningOp
        else .ok { done := true, uri := some "https://backend/video1" }) 10 =
      some (3, 15000, .resolved (some "blob:https://backend/video1&key=K")) ∧
    ("blob:https://backend/video1&key=K" : String) ≠ "https://backend/video1" := by
  constructor
  · decide
  · decide

/-- Claim C5 (amended): for a backend whose first 2 polls report `Running`
and whose 3rd reports completion with a non-empty declared locator `u`, the
poller issues exactly 3 status queries, sleeping 5000 ms before each one
(15000 ms in total), and resolves with the object URL created from the
content fetched at `u` (with the API key appended) — a value derived from,
but not equal to, the declared locator. -/
theorem generateVideo_three_polls (apiKey u : String) (polls : Nat → PollResult)
    (fuel : Nat) (h0 : polls 0 = .ok runningOp) (h1 : polls 1 = .ok runningOp)
    (h2 : polls 2 = .ok { done := true, uri := some u }) (hu : u ≠ "")
    (hfuel : 3 ≤ fuel) :
    generateVideo apiKey (.ok runningOp) polls fuel =
      some (3, 3 * POLL_INTERVAL_MS,
        .resolved (some (createObjectURL (fetchBody (u ++ "&key=" ++ apiKey))))) := by
  have hp := pollUntilDone_run polls { done := true, uri := some u } rfl 2 fuel 0 0
    (by omega)
    (fun j hj => by
      interval_cases j
      · exact h0
      · exact h1)
    h2
  simp only [generateVideo]
  rw [hp]
  simp only [Option.map_some']
  rw [if_neg hu]
  norm_num

/-- Claim C5 (amended) witness at a concrete 3-poll backend. -/
theorem generateVideo_three_polls_witness :
    generateVideo "K" (.ok runningOp)
      (fun k => if k < 2 then .ok runningOp
        else .ok { done := true, uri := some "https://backend/video1" }) 10 =
      some (3, 3 * POLL_INTERVAL_MS,
        .resolved (some (createObjectURL
          (fetchBody ("https://backend/video1" ++ "&key=" ++ "K"))))) :=
  generateVideo_three_polls "K" "https://backend/video1"
    (fun k => if k < 2 then .ok runningOp
      else .ok { done := true, uri := some "https://backend/video1" })
    10 (by decide) (by decide) (by decide) (by decide) (by decide)

/-- Claim C6 counterexample: for a backend whose very first poll reports an
explicitly failed operation (done, no result locator), `generateVideo` stops
after that single poll but resolves normally with `null` — it does not
reject/raise any `JobFailed` error and attaches no status payload for the
caller. -/
theorem generateVideo_failure_null_cex :
    generateVideo "K" (.ok runningOp)
      (fun _ => .ok { done := true, uri := none }) 10 =
      some (1, 5000, .resolved none) ∧
    (JsOutcome.resolved (none : Option String)).isRejected = false := by
  constructor
  · decide
  · decide

/-- Claim C6 (amended): on terminal failure — a transport error thrown by a
status query or an explicitly failed operation (done with no locator) at
poll `k`, all earlier polls reporting `Running` — the poller stops
immediately: exactly `k + 1` status queries are issued (none after the
failure), and the promise resolves with `null`; no `JobFailed` rejection and
no status payload reach the caller. -/
theorem generateVideo_terminal_failure (apiKey msg : String)
    (polls : Nat → PollResult) (k fuel : Nat) (hfuel : k < fuel)
    (hrun : ∀ j, j < k → polls j = .ok runningOp)
    (hfail : polls k = .fail msg ∨ polls k = .ok { done := true, uri := none }) :
    generateVideo apiKey (.ok runningOp) polls fuel =
      some (k + 1, (k + 1) * POLL_INTERVAL_MS, .resolved none) := by
  simp only [generateVideo]
  rcases hfail with h | h
  · have hp := pollUntilDone_fail_run polls msg k fuel 0 0 hfuel
      (fun j hj => by rw [show (0 : Nat) + j = j from by omega]; exact hrun j hj)
      (by rw [show (0 : Nat) + k = k from by omega]; exact h)
    rw [hp]
    simp only [Option.map_some']
    rw [show (0 : Nat) + k + 1 = k + 1 from by omega,
      show (0 : Nat) + (k + 1) * POLL_INTERVAL_MS = (k + 1) * POLL_INTERVAL_MS from
        by omega]
  · have hp := pollUntilDone_run polls { done := true, uri := none } rfl k fuel 0 0 hfuel
      (fun j hj => by rw [show (0 : Nat) + j = j from by omega]; exact hrun j hj)
      (by rw [show (0 : Nat) + k = k from by omega]; exact h)
    rw [hp]
    simp only [Option.map_some']
    rw [show (0 : Nat) + k + 1 = k + 1 from by omega,
      show (0 : Nat) + (k + 1) * POLL_INTERVAL_MS = (k + 1) * POLL_INTERVAL_MS from
        by omega]

/-- Claim C6 (amended) witness: a transport error on the very first poll
yields exactly one status query and a resolved `null`. -/
theorem generateVideo_terminal_failure_witness :
    generateVideo "K" (.ok runningOp) (fun _ => .fail "network down") 10 =
      some (0 + 1, (0 + 1) * POLL_INTERVAL_MS, .resolved none) :=
  generateVideo_terminal_failure "K" "network down" (fun _ => .fail "network down")
    0 10 (by decide) (fun j hj => absurd hj (by omega)) (Or.inl rfl)

end Mazingira
